import Mathlib

/-!
Verification of the cig-loop / ez-ralph-loop streaming pipeline.

This file gives a shallow embedding of the program's core components and
proves (or refutes) the frozen specification claims about them:

* `src/markdown.ts` — the `MarkdownStreamer` character-level sanitizer,
  embedded as a pure state machine `MarkdownStreamer` with `step`, `feed`,
  `reset` and `flush`.
* `src/claude.ts` — the streaming event processing (`handleBlockStart`,
  `handleBlockDelta`, `handleBlockStop`, `handleAssistantMessage`,
  `handleResult`, the line-splitting decoder loop of `runClaudeIteration`
  and its end-of-stream remainder handling, and the sentinel check).
* `src/index.ts` — the `runLoop` iteration driver: cumulative stat
  accumulation and the per-iteration stop checks (sentinels and
  signal-death exit codes).

Modelling conventions:
* Terminal styling (the `chalk` wrappers) adds ANSI escape codes around a
  string and never changes its text content; it is modelled as the
  identity on text, and display writes are recorded as a trace of typed
  `Disp` items carrying the semantic payload of each `footer.write` /
  `footer.writeln` call.  The `format.ts` presentation helpers
  (`formatToolUse`, `formatToolResult`, icons) belong to the display sink
  side of that boundary: the trace records the raw data handed to them.
* `JSON.parse` is a platform primitive; the decoder is parameterized by a
  `parseJson : String → Option Event` function.
* JS numbers are embedded as `Nat` (counts, exit codes, durations) and
  `ℚ` (cost amounts); JS string falsiness (`undefined`/`""`) is embedded
  with `Option String` plus explicit `= ""` tests mirroring each source
  condition.
-/

/-! ## markdown.ts — MarkdownStreamer -/

/-- The `State` const enum of `markdown.ts`. -/
inductive MState
  | normal
  | lineStart
  | codeFence
  | codeFenceOpening
  | inlineCode
  | star1
  | bold
  | boldStar1
deriving DecidableEq, Repr

/-- The private fields of the `MarkdownStreamer` class. -/
structure MarkdownStreamer where
  state : MState
  lineStartBuf : String
  inlineCodeBuf : String
  boldBuf : String
  fenceLineBuf : String
deriving DecidableEq, Repr

namespace MarkdownStreamer

/-- Field initializers of the `MarkdownStreamer` class: state `LineStart`,
all four buffers empty. -/
def mk0 : MarkdownStreamer :=
  { state := .lineStart, lineStartBuf := "", inlineCodeBuf := "",
    boldBuf := "", fenceLineBuf := "" }

/-- `chalk.underline` — ANSI styling modelled as identity on text. -/
def chalkUnderline (s : String) : String := s

/-- `chalk.bold` — ANSI styling modelled as identity on text. -/
def chalkBold (s : String) : String := s

/-- The `/^#*$/` test on `lineStartBuf`. -/
def allHash (s : String) : Bool := s.data.all (· = '#')

/-- The `/^`{3,}\s*$/` closing-fence test: three or more backticks
followed only by whitespace. -/
def isClosingFence (s : String) : Bool :=
  decide (3 ≤ (s.data.takeWhile (· = '`')).length) &&
    (s.data.dropWhile (· = '`')).all Char.isWhitespace

/-- `stepNormal` of `markdown.ts`. -/
def stepNormal (m : MarkdownStreamer) (ch : Char) : String × MarkdownStreamer :=
  if ch = '\n' then
    ("\n", { m with state := .lineStart, lineStartBuf := "" })
  else if ch = '`' then
    ("", { m with state := .inlineCode, inlineCodeBuf := "" })
  else if ch = '*' then
    ("", { m with state := .star1 })
  else
    (ch.toString, m)

/-- `stepLineStart` of `markdown.ts`. -/
def stepLineStart (m : MarkdownStreamer) (ch : Char) : String × MarkdownStreamer :=
  if ch = '`' then
    let buf := m.lineStartBuf.push '`'
    if buf = "```" then
      ("", { m with lineStartBuf := "", state := .codeFenceOpening })
    else
      ("", { m with lineStartBuf := buf })
  else if ch = '#' ∧ allHash m.lineStartBuf then
    ("", { m with lineStartBuf := m.lineStartBuf.push '#' })
  else if ch = ' ' ∧ allHash m.lineStartBuf ∧ m.lineStartBuf ≠ "" then
    ("", { m with lineStartBuf := "", state := .normal })
  else if ch = '\n' then
    (m.lineStartBuf ++ "\n", { m with lineStartBuf := "" })
  else
    let buf := m.lineStartBuf
    let m1 := { m with lineStartBuf := "", state := .normal }
    let r := stepNormal m1 ch
    (buf ++ r.1, r.2)

/-- `stepCodeFenceOpening` of `markdown.ts`. -/
def stepCodeFenceOpening (m : MarkdownStreamer) (ch : Char) : String × MarkdownStreamer :=
  if ch = '\n' then
    ("", { m with state := .codeFence, fenceLineBuf := "" })
  else
    ("", m)

/-- `stepCodeFence` of `markdown.ts`. -/
def stepCodeFence (m : MarkdownStreamer) (ch : Char) : String × MarkdownStreamer :=
  if ch = '\n' then
    let line := m.fenceLineBuf
    if isClosingFence line then
      ("", { m with fenceLineBuf := "", state := .lineStart, lineStartBuf := "" })
    else
      ("  │ " ++ line ++ "\n", { m with fenceLineBuf := "" })
  else
    ("", { m with fenceLineBuf := m.fenceLineBuf.push ch })

/-- `stepInlineCode` of `markdown.ts`. -/
def stepInlineCode (m : MarkdownStreamer) (ch : Char) : String × MarkdownStreamer :=
  if ch = '`' then
    (chalkUnderline m.inlineCodeBuf, { m with inlineCodeBuf := "", state := .normal })
  else if ch = '\n' then
    ("`" ++ m.inlineCodeBuf ++ "\n",
      { m with inlineCodeBuf := "", state := .lineStart, lineStartBuf := "" })
  else
    ("", { m with inlineCodeBuf := m.inlineCodeBuf.push ch })

/-- `stepStar1` of `markdown.ts`. -/
def stepStar1 (m : MarkdownStreamer) (ch : Char) : String × MarkdownStreamer :=
  if ch = '*' then
    ("", { m with state := .bold, boldBuf := "" })
  else
    let m1 := { m with state := .normal }
    let r := stepNormal m1 ch
    ("*" ++ r.1, r.2)

/-- `stepBold` of `markdown.ts`. -/
def stepBold (m : MarkdownStreamer) (ch : Char) : String × MarkdownStreamer :=
  if ch = '*' then
    ("", { m with state := .boldStar1 })
  else if ch = '\n' then
    (chalkBold m.boldBuf ++ "\n",
      { m with boldBuf := "", state := .lineStart, lineStartBuf := "" })
  else
    ("", { m with boldBuf := m.boldBuf.push ch })

/-- `stepBoldStar1` of `markdown.ts`. -/
def stepBoldStar1 (m : MarkdownStreamer) (ch : Char) : String × MarkdownStreamer :=
  if ch = '*' then
    (chalkBold m.boldBuf, { m with boldBuf := "", state := .normal })
  else
    ("", { m with boldBuf := (m.boldBuf.push '*').push ch, state := .bold })

/-- The private `step` dispatcher of `markdown.ts`. -/
def step (m : MarkdownStreamer) (ch : Char) : String × MarkdownStreamer :=
  match m.state with
  | .lineStart => stepLineStart m ch
  | .normal => stepNormal m ch
  | .codeFenceOpening => stepCodeFenceOpening m ch
  | .codeFence => stepCodeFence m ch
  | .inlineCode => stepInlineCode m ch
  | .star1 => stepStar1 m ch
  | .bold => stepBold m ch
  | .boldStar1 => stepBoldStar1 m ch

/-- The character loop inside `feed`, over an explicit character list. -/
def feedChars (m : MarkdownStreamer) : List Char → String × MarkdownStreamer
  | [] => ("", m)
  | c :: cs =>
    let r := step m c
    let r2 := feedChars r.2 cs
    (r.1 ++ r2.1, r2.2)

/-- `feed` of `markdown.ts`: process a fragment character by character,
returning the emitted output and the updated streamer. -/
def feed (m : MarkdownStreamer) (text : String) : String × MarkdownStreamer :=
  feedChars m text.data

/-- `reset` of `markdown.ts`: discard all state. -/
def reset (_m : MarkdownStreamer) : MarkdownStreamer := mk0

/-- `flush` of `markdown.ts`: force out buffered content and return to
`LineStart`. -/
def flush (m : MarkdownStreamer) : String × MarkdownStreamer :=
  match m.state with
  | .lineStart => (m.lineStartBuf, { m with lineStartBuf := "", state := .lineStart })
  | .inlineCode => ("`" ++ m.inlineCodeBuf, { m with inlineCodeBuf := "", state := .lineStart })
  | .star1 => ("*", { m with state := .lineStart })
  | .bold => ("**" ++ m.boldBuf, { m with boldBuf := "", state := .lineStart })
  | .boldStar1 => ("**" ++ m.boldBuf ++ "*", { m with boldBuf := "", state := .lineStart })
  | .codeFence =>
    (if isClosingFence m.fenceLineBuf then ""
     else if m.fenceLineBuf ≠ "" then "  │ " ++ m.fenceLineBuf else "",
     { m with fenceLineBuf := "", state := .lineStart })
  | .codeFenceOpening => ("", { m with state := .lineStart })
  | .normal => ("", { m with state := .lineStart })

end MarkdownStreamer

/-! ## claude.ts — streaming event processing -/

/-- `types.ts` `TokenUsage`. -/
structure TokenUsage where
  inputTokens : Nat
  outputTokens : Nat
  cacheReadTokens : Nat
  cacheCreationTokens : Nat
deriving DecidableEq, Repr

/-- The `type` union of `types.ts` `StreamingBlock`. -/
inductive SBType
  | text
  | tool_use
  | tool_result
  | thinking
deriving DecidableEq, Repr

/-- `types.ts` `StreamingBlock`; the optional `name`/`input`/`content`
fields are embedded with `""` as the absent value, matching the
`(x || "")` defaulting at every use site in `claude.ts`. -/
structure StreamingBlock where
  type : SBType
  name : String := ""
  input : String := ""
  content : String := ""
deriving DecidableEq, Repr

/-- A `usage` payload (`input_tokens`, `output_tokens`, ...); absent
numeric fields are `none`, and every read in the source defaults them
with `|| 0`. -/
structure UsagePayload where
  input_tokens : Option Nat := none
  output_tokens : Option Nat := none
  cache_read_input_tokens : Option Nat := none
  cache_creation_input_tokens : Option Nat := none
deriving DecidableEq, Repr

/-- A `content_block` payload of a `content_block_start` event. -/
structure BlockPayload where
  type : String
  name : Option String := none
deriving DecidableEq, Repr

/-- A `delta` payload of a `content_block_delta` event. -/
inductive DeltaPayload
  | text_delta (text : String)
  | thinking_delta (thinking : String)
  | input_json_delta (partial_json : String)
  | otherDelta (type : String)
deriving DecidableEq, Repr

/-- One element of a consolidated assistant `message.content` array. -/
inductive MsgBlock
  | textBlock (text : String)
  | toolUseBlock (name : String) (input : String)
  | toolResultBlock (content : String)
  | otherBlock (type : String)
deriving DecidableEq, Repr

/-- An `assistant` event's `message` field. -/
structure AssistantMsg where
  content : Option (List MsgBlock) := none
  usage : Option UsagePayload := none
deriving DecidableEq, Repr

/-- The decoded stream events dispatched by `processEvent`.  This models
the event subset the verified claims exercise; `system` and `user`
events touch only the display sink (and a diagnostic file) and are
covered by `otherEvent` here. -/
inductive Event
  | contentBlockStart (index : Nat) (content_block : Option BlockPayload)
  | contentBlockDelta (index : Nat) (delta : Option DeltaPayload)
  | contentBlockStop (index : Nat)
  | assistant (message : Option AssistantMsg)
  | result (usage : Option UsagePayload) (total_cost_usd : Option ℚ)
  | streamEvent (event : Event)
  | otherEvent (type : String)
deriving DecidableEq, Repr

/-- One recorded display-sink call (`footer.write` / `footer.writeln`).
Each constructor carries the semantic payload of the call; converting a
payload to final styled text (the `format.ts` helpers and `chalk`) is
the display sink's concern. -/
inductive Disp
  | blank
  | rawLine (s : String)
  | verboseLine (s : String)
  | textChunk (s : String)
  | thinkingStart
  | thinkingChunk (s : String)
  | thinkingEnd
  | toolUseLine (name : String) (input : String)
  | toolResultLine (content : String)
  | assistantTextLine (s : String)
  | assistantToolUseLine (name : String) (input : String)
  | assistantToolResultLine (content : String)
  | stepCostLine (cost : ℚ) (inTok : Nat) (outTok : Nat)
deriving DecidableEq, Repr

/-- The `ProcessingState` record of `claude.ts` (the closure state of
one `runClaudeIteration` call). -/
structure PState where
  thinkingStarted : Bool := false
  output : String := ""
  hasStreamedContent : Bool := false
  markdownStreamer : MarkdownStreamer := MarkdownStreamer.mk0
  lastTextBlock : String := ""
deriving DecidableEq, Repr

/-- The full per-iteration processing state: the `blocks` table, the
shared `ProcessingState`, the display trace, and the live/final metric
variables of `runClaudeIteration`. -/
structure IterState where
  blocks : List (Nat × StreamingBlock) := []
  ps : PState := {}
  display : List Disp := []
  liveInputTokens : Nat := 0
  liveOutputTokens : Nat := 0
  liveCostUsd : ℚ := 0
  tokenUsage : Option TokenUsage := none
  costUsd : Option ℚ := none
deriving DecidableEq, Repr

/-- Lookup `blocks[idx]` in the block table. -/
def lookupB : List (Nat × StreamingBlock) → Nat → Option StreamingBlock
  | [], _ => none
  | p :: bs, idx => if p.1 = idx then some p.2 else lookupB bs idx

/-- `delete blocks[idx]`. -/
def eraseB : List (Nat × StreamingBlock) → Nat → List (Nat × StreamingBlock)
  | [], _ => []
  | p :: bs, idx => if p.1 = idx then eraseB bs idx else p :: eraseB bs idx

/-- `blocks[idx] = b` (assignment replaces any existing entry). -/
def insertB (bs : List (Nat × StreamingBlock)) (idx : Nat) (b : StreamingBlock) :
    List (Nat × StreamingBlock) :=
  (idx, b) :: eraseB bs idx

/-- JS `x || d` for an optional string `x` (absent and `""` are falsy). -/
def jsOr (x : Option String) (d : String) : String :=
  match x with
  | some s => if s = "" then d else s
  | none => d

/-- JS `x || d` for a string `x` (`""` is falsy). -/
def jsOrS (x : String) (d : String) : String := if x = "" then d else x

/-- JS `x || 0` for an optional number. -/
def jsOrN (x : Option Nat) : Nat := x.getD 0

/-- JS `x || 0` for an optional cost amount (a `0` value is also falsy,
but `0 || 0` is `0`, so `getD 0` is exact). -/
def jsOrQ (x : Option ℚ) : ℚ := x.getD 0

/-- JS `!s.trim()`: the string is empty or all whitespace. -/
def jsBlank (s : String) : Bool := s.data.all Char.isWhitespace

/-- JS `s.trim()`: strip leading and trailing whitespace. -/
def jsTrim (s : String) : String :=
  String.mk (((s.data.dropWhile Char.isWhitespace).reverse.dropWhile
    Char.isWhitespace).reverse)

/-- Substring test on character lists (JS `String.includes`). -/
def containsSub : List Char → List Char → Bool
  | hay, needle =>
    if needle.isPrefixOf hay then true
    else
      match hay with
      | [] => false
      | _ :: rest => containsSub rest needle

/-- Split a character stream at every newline: the `while
(buffer.indexOf("\n") !== -1)` loop of the decoder.  The last element
is the unterminated tail. -/
def splitNl (cs : List Char) : List (List Char) :=
  cs.foldr
    (fun c acc =>
      if c = '\n' then [] :: acc
      else
        match acc with
        | [] => [[c]]
        | a :: rest => (c :: a) :: rest)
    [[]]

/-- The open tag matched by `stripSystemReminders`. -/
def srOpenTag : List Char := "<system-reminder>".data

/-- The close tag matched by `stripSystemReminders`. -/
def srCloseTag : List Char := "</system-reminder>".data

/-- Scan for the nearest close tag; return the suffix after it
(the non-greedy `[\s\S]*?` of the regex). -/
def srDropToClose : List Char → Option (List Char)
  | [] => none
  | c :: rest =>
    if srCloseTag.isPrefixOf (c :: rest) then
      some ((c :: rest).drop srCloseTag.length)
    else
      srDropToClose rest

/-- Left-to-right scan of `replace(/<system-reminder>[\s\S]*?<\/system-reminder>/g, "")`:
an open tag with a later close tag is removed together with everything
between; an open tag with no close tag anywhere after it cannot be part
of a match (close tags are ordered), so scanning stops. -/
def srStrip (fuel : Nat) (cs : List Char) : List Char :=
  match fuel, cs with
  | 0, cs => cs
  | _ + 1, [] => []
  | fuel + 1, c :: rest =>
    if srOpenTag.isPrefixOf (c :: rest) then
      match srDropToClose ((c :: rest).drop srOpenTag.length) with
      | some after => srStrip fuel after
      | none => c :: rest
    else
      c :: srStrip fuel rest

/-- `format.ts` `stripSystemReminders`: remove reminder blocks, then
trim. -/
def stripSystemReminders (text : String) : String :=
  jsTrim (String.mk (srStrip text.data.length text.data))

/-- `handleBlockStart` of `claude.ts`. -/
def handleBlockStart (idx : Nat) (content_block : Option BlockPayload)
    (st : IterState) : IterState :=
  match content_block with
  | none => st
  | some block =>
    let st :=
      if block.type = "tool_use" ∨ block.type = "text" ∨ block.type = "thinking" then
        { st with ps.hasStreamedContent := true }
      else st
    if block.type = "tool_use" then
      { st with blocks := insertB st.blocks idx { type := .tool_use, name := jsOr block.name "tool" } }
    else if block.type = "text" then
      { st with
        ps.markdownStreamer := MarkdownStreamer.mk0
        ps.lastTextBlock := ""
        display := st.display ++ [.blank]
        blocks := insertB st.blocks idx { type := .text, content := "" } }
    else if block.type = "tool_result" then
      { st with blocks := insertB st.blocks idx { type := .tool_result, content := "" } }
    else if block.type = "thinking" then
      { st with blocks := insertB st.blocks idx { type := .thinking, content := "" } }
    else
      st

/-- `handleBlockDelta` of `claude.ts`. -/
def handleBlockDelta (idx : Nat) (delta : Option DeltaPayload)
    (st : IterState) : IterState :=
  match delta with
  | none => st
  | some (.text_delta text) =>
    if text = "" then st
    else
      let fed := MarkdownStreamer.feed st.ps.markdownStreamer text
      { st with
        ps := { st.ps with
          hasStreamedContent := true
          markdownStreamer := fed.2
          output := st.ps.output ++ text
          lastTextBlock := st.ps.lastTextBlock ++ text }
        display := st.display ++ (if fed.1 = "" then [] else [.textChunk fed.1])
        blocks :=
          match lookupB st.blocks idx with
          | some b => insertB st.blocks idx { b with content := b.content ++ text }
          | none => st.blocks }
  | some (.thinking_delta thinking) =>
    if thinking = "" then st
    else
      { st with
        ps := { st.ps with
          thinkingStarted := true
          output := st.ps.output ++ thinking }
        display := st.display ++
          (if st.ps.thinkingStarted then [] else [.thinkingStart]) ++ [.thinkingChunk thinking]
        blocks :=
          match lookupB st.blocks idx with
          | some b => insertB st.blocks idx { b with content := b.content ++ thinking }
          | none => st.blocks }
  | some (.input_json_delta partial_json) =>
    if partial_json = "" then st
    else
      match lookupB st.blocks idx with
      | some b =>
        { st with blocks := insertB st.blocks idx { b with input := b.input ++ partial_json } }
      | none => st
  | some (.otherDelta _) => st

/-- `handleBlockStop` of `claude.ts`. -/
def handleBlockStop (idx : Nat) (st : IterState) : IterState :=
  match lookupB st.blocks idx with
  | none => st
  | some block =>
    match block.type with
    | .tool_use =>
      { st with
        display := st.display ++ [.toolUseLine (jsOrS block.name "tool") (jsOrS block.input "\x7b\x7d")]
        blocks := eraseB st.blocks idx }
    | .tool_result =>
      { st with
        display := st.display ++ [.toolResultLine block.content, .blank]
        blocks := eraseB st.blocks idx }
    | .thinking =>
      { st with
        ps.thinkingStarted := false
        display := st.display ++ (if st.ps.thinkingStarted then [.thinkingEnd] else [])
        blocks := eraseB st.blocks idx }
    | .text =>
      let fl := MarkdownStreamer.flush st.ps.markdownStreamer
      { st with
        ps.markdownStreamer := fl.2
        display := st.display ++
          (if fl.1 = "" then [] else [.textChunk fl.1]) ++ [.blank, .blank]
        blocks := eraseB st.blocks idx }

/-- The fallback rendering loop of `handleAssistantMessage`. -/
def renderAssistantBlock (st : IterState) (block : MsgBlock) : IterState :=
  match block with
  | .textBlock text =>
    if text = "" then st
    else
      let cleaned := stripSystemReminders text
      if cleaned = "" then st
      else
        { st with
          display := st.display ++ [.assistantTextLine cleaned]
          ps.output := st.ps.output ++ cleaned ++ "\n" }
  | .toolUseBlock name input =>
    { st with display := st.display ++ [.assistantToolUseLine name input] }
  | .toolResultBlock content =>
    if content = "" then st
    else { st with display := st.display ++ [.assistantToolResultLine content] }
  | .otherBlock _ => st

/-- `handleAssistantMessage` of `claude.ts`: if any granular block event
was streamed this turn, reset the flag and skip; otherwise render the
consolidated content as a fallback. -/
def handleAssistantMessage (message : Option AssistantMsg) (st : IterState) : IterState :=
  match message with
  | none => st
  | some m =>
    match m.content with
    | none => st
    | some content =>
      if st.ps.hasStreamedContent then
        { st with ps.hasStreamedContent := false }
      else
        content.foldl renderAssistantBlock st

/-- `handleResult` of `claude.ts` (display only; metric capture happens
in the decoder loop). -/
def handleResult (usage : Option UsagePayload) (total_cost_usd : Option ℚ)
    (st : IterState) : IterState :=
  if ((match total_cost_usd with | some c => decide (¬ c = 0) | none => false) || usage.isSome) = true then
    { st with display := st.display ++
        [.blank, .stepCostLine (jsOrQ total_cost_usd) (jsOrN (usage.bind (·.input_tokens)))
          (jsOrN (usage.bind (·.output_tokens)))] }
  else
    st

/-- `processEvent` of `claude.ts`: dispatch one decoded event by type.
Unknown types (and the `message_start`/`message_delta`/`message_stop`/
`ping` cases) are ignored. -/
def processEvent (e : Event) (st : IterState) : IterState :=
  match e with
  | .contentBlockStart idx cb => handleBlockStart idx cb st
  | .contentBlockDelta idx d => handleBlockDelta idx d st
  | .contentBlockStop idx => handleBlockStop idx st
  | .assistant message => handleAssistantMessage message st
  | .result usage cost => handleResult usage cost st
  | .streamEvent _ => st
  | .otherEvent _ => st

/-- One-level `stream_event` envelope unwrap. -/
def unwrapEnvelope (e : Event) : Event :=
  match e with
  | .streamEvent inner => inner
  | e => e

/-- The per-line body of the decoder loop in `runClaudeIteration`:
envelope unwrap, `processEvent`, then the live-stats update from
assistant usage and the final metric capture from `result` events. -/
def processParsedEvent (e : Event) (st : IterState) : IterState :=
  let e := unwrapEnvelope e
  let st := processEvent e st
  let st :=
    match e with
    | .assistant (some m) =>
      match m.usage with
      | some u =>
        { st with
          liveInputTokens := st.liveInputTokens + jsOrN u.input_tokens
          liveOutputTokens := st.liveOutputTokens + jsOrN u.output_tokens }
      | none => st
    | _ => st
  match e with
  | .result usage total_cost_usd =>
    let st :=
      match usage with
      | some u =>
        let tu : TokenUsage :=
          { inputTokens := jsOrN u.input_tokens
            outputTokens := jsOrN u.output_tokens
            cacheReadTokens := jsOrN u.cache_read_input_tokens
            cacheCreationTokens := jsOrN u.cache_creation_input_tokens }
        { st with tokenUsage := some tu }
      | none => st
    let cost := jsOrQ total_cost_usd
    { st with
      costUsd := some cost
      liveCostUsd := cost
      liveInputTokens := (st.tokenUsage.map (·.inputTokens)).getD 0
      liveOutputTokens := (st.tokenUsage.map (·.outputTokens)).getD 0 }
  | _ => st

/-- Fold a whole decoded event sequence through the dispatcher. -/
def processEvents (es : List Event) (st : IterState) : IterState :=
  es.foldl (fun s e => processParsedEvent e s) st

/-- The subset of `LoopConfig` consumed by the streaming code and the
loop controller. -/
structure LoopConfig where
  iterations : Nat := 10
  stopString : Option String := none
  continueString : Option String := none
  verbose : Bool := false
deriving DecidableEq, Repr

/-- JS `String.includes`. -/
def strIncludes (s : String) (sub : String) : Bool :=
  containsSub s.data sub.data

/-- Processing of one complete line in the decoder loop: blank lines are
skipped, verbose mode echoes the raw line, a parsed line is dispatched,
and a parse failure forwards the line as opaque text. -/
def feedLine (cfg : LoopConfig) (parseJson : String → Option Event)
    (st : IterState) (line : String) : IterState :=
  if jsBlank line then st
  else
    let st :=
      if cfg.verbose then { st with display := st.display ++ [.verboseLine line] } else st
    match parseJson line with
    | some e => processParsedEvent e st
    | none =>
      { st with
        display := st.display ++ [.rawLine line]
        ps.output := st.ps.output ++ line ++ "\n" }

/-- One reader-loop round: append the new chunk to the buffer, process
every complete line, and keep the unterminated tail as the new buffer. -/
def feedChunk (cfg : LoopConfig) (parseJson : String → Option Event)
    (acc : IterState × String) (chunk : String) : IterState × String :=
  let buf := acc.2 ++ chunk
  let parts := (splitNl buf.data).map String.mk
  (parts.dropLast.foldl (feedLine cfg parseJson) acc.1, parts.getLastD "")

/-- The full stdout-draining loop of `runClaudeIteration`, including the
end-of-stream handling of the remaining buffer (source lines 187–191):
a non-blank remainder is forwarded verbatim as opaque text — it is
never offered to `parseJson`. -/
def runStream (cfg : LoopConfig) (parseJson : String → Option Event)
    (chunks : List String) : IterState :=
  let r := chunks.foldl (feedChunk cfg parseJson) ({}, "")
  if jsBlank r.2 then r.1
  else
    { r.1 with
      display := r.1.display ++ [.rawLine r.2]
      ps.output := r.1.ps.output ++ r.2 ++ "\n" }

/-- The end-of-iteration sentinel check of `runClaudeIteration`:
`(stopStringDetected, continueStringDetected, finalResponse)`, computed
from `state.lastTextBlock` only. -/
def sentinelCheck (cfg : LoopConfig) (st : IterState) : Bool × Bool × String :=
  let finalText := st.ps.lastTextBlock
  (match cfg.stopString with
   | some s => strIncludes finalText s
   | none => false,
   match cfg.continueString with
   | some s => strIncludes finalText s
   | none => false,
   finalText)

/-! ## index.ts — runLoop: cumulative stats and stop checks -/

/-- `types.ts` `IterationResult`. -/
structure IterationResult where
  iteration : Nat
  success : Bool
  exitCode : Nat
  durationMs : Nat
  tokenUsage : Option TokenUsage := none
  costUsd : Option ℚ := none
  output : String := ""
  stopStringDetected : Bool := false
  continueStringDetected : Bool := false
  finalResponse : String := ""
deriving DecidableEq, Repr

/-- `types.ts` `CumulativeStats`. -/
structure CumulativeStats where
  completedIterations : Nat
  totalDurationMs : Nat
  totalCostUsd : ℚ
  totalInputTokens : Nat
  totalOutputTokens : Nat
deriving DecidableEq, Repr

/-- The `cumulative` initializer in `runLoop` (all fields zero). -/
def initCumulative : CumulativeStats :=
  { completedIterations := 0, totalDurationMs := 0, totalCostUsd := 0,
    totalInputTokens := 0, totalOutputTokens := 0 }

/-- The cumulative-stats update of `runLoop` (source lines 787–793),
applied once per iteration `i` with that iteration's result:
`completedIterations` is assigned `i`, the other fields are increased by
the result's values with missing cost/token data counting as zero. -/
def updateCumulative (cum : CumulativeStats) (i : Nat) (r : IterationResult) :
    CumulativeStats :=
  { completedIterations := i
    totalDurationMs := cum.totalDurationMs + r.durationMs
    totalCostUsd := cum.totalCostUsd + jsOrQ r.costUsd
    totalInputTokens := cum.totalInputTokens + (r.tokenUsage.map (·.inputTokens)).getD 0
    totalOutputTokens := cum.totalOutputTokens + (r.tokenUsage.map (·.outputTokens)).getD 0 }

/-- The signal-name table of `runLoop` with its `signal N` fallback. -/
def signalName (sig : Nat) : String :=
  if sig = 9 then "SIGKILL"
  else if sig = 15 then "SIGTERM"
  else if sig = 11 then "SIGSEGV"
  else if sig = 6 then "SIGABRT"
  else "signal " ++ toString sig

/-- The stop reason produced when an exit code is decoded as a fatal
signal (`128 + signal number`). -/
def killedReason (i exitCode : Nat) : String :=
  "Claude killed by " ++ signalName (exitCode - 128) ++
    " (exit code " ++ toString exitCode ++ ") on iteration " ++ toString i

/-- The in-order per-iteration stop evaluation of the `runLoop` body:
stop-sentinel present, continue-sentinel absent, then fatal-signal exit
code (≥ 128 on a non-successful result).  `none` means the loop
continues; exit codes 1–127 are reported but produce no stop reason. -/
def stopCheck (cfg : LoopConfig) (i : Nat) (r : IterationResult) : Option String :=
  match cfg.stopString with
  | some s =>
    if r.stopStringDetected then
      some ("--stop-string \"" ++ s ++ "\" detected on iteration " ++ toString i)
    else
      stopCheckContinue cfg i r
  | none => stopCheckContinue cfg i r
where
  /-- The continue-sentinel and exit-code tail of the evaluation. -/
  stopCheckContinue (cfg : LoopConfig) (i : Nat) (r : IterationResult) : Option String :=
    match cfg.continueString with
    | some s =>
      if ¬ r.continueStringDetected then
        some ("--continue-string \"" ++ s ++ "\" not detected on iteration " ++ toString i)
      else
        stopCheckExit i r
    | none => stopCheckExit i r
  /-- The `!result.success` / `exitCode >= 128` check. -/
  stopCheckExit (i : Nat) (r : IterationResult) : Option String :=
    if ¬ r.success ∧ 128 ≤ r.exitCode then some (killedReason i r.exitCode) else none

/-- The `for` loop of `runLoop` in finite mode, with `fuel` iterations
left and `i` the current 1-based ordinal.  `results i` is the
`IterationResult` that `runClaudeIteration` returns on iteration `i`.
Returns the final cumulative stats and the stop reason (if a `break`
fired before the budget ran out). -/
def loopGo (cfg : LoopConfig) (results : Nat → IterationResult) :
    Nat → Nat → CumulativeStats → CumulativeStats × Option String
  | 0, _, cum => (cum, none)
  | fuel + 1, i, cum =>
    let r := results i
    let cum1 := updateCumulative cum i r
    match stopCheck cfg i r with
    | some reason => (cum1, some reason)
    | none => loopGo cfg results fuel (i + 1) cum1

/-- `runLoop` of `index.ts` in finite mode (`config.iterations ≠ 0`):
run up to `cfg.iterations` iterations and produce the cumulative stats
and the final stop reason ("all iterations completed" when no break
fired).  The display writes, inter-iteration delay and the
fatal-exception catch are I/O and are not modelled. -/
def runLoopModel (cfg : LoopConfig) (results : Nat → IterationResult) :
    CumulativeStats × String :=
  let r := loopGo cfg results cfg.iterations 1 initCumulative
  (r.1, r.2.getD "all iterations completed")

/-- The per-ordinal fold of `updateCumulative` over a list of iteration
results, starting at ordinal `i`. -/
def applyResults (cum : CumulativeStats) (i : Nat) : List IterationResult → CumulativeStats
  | [] => cum
  | r :: rs => applyResults (updateCumulative cum i r) (i + 1) rs

/-! ## Auxiliary definitions for the verification -/

/-- Concatenation of a list of text fragments. -/
def sjoin : List String → String
  | [] => ""
  | s :: rest => s ++ sjoin rest

namespace MarkdownStreamer

/-- Feed a list of fragments in order, concatenating the outputs. -/
def feedAll (m : MarkdownStreamer) : List String → String × MarkdownStreamer
  | [] => ("", m)
  | s :: rest =>
    let r := feed m s
    let r2 := feedAll r.2 rest
    (r.1 ++ r2.1, r2.2)

/-- Buffer hygiene invariant of the streamer: each accumulation buffer is
non-empty only while its owning construct's state is active.  Holds in
the initial state and is preserved by every transition. -/
def inv (m : MarkdownStreamer) : Prop :=
  (m.state ≠ .lineStart → m.lineStartBuf = "") ∧
  (m.state ≠ .inlineCode → m.inlineCodeBuf = "") ∧
  (¬(m.state = .bold ∨ m.state = .boldStar1) → m.boldBuf = "") ∧
  (m.state ≠ .codeFence → m.fenceLineBuf = "")

end MarkdownStreamer

/-- An external operation on the sanitizer (the public interface of the
`MarkdownStreamer` class). -/
inductive MDOp
  | feedOp (s : String)
  | resetOp
  | flushOp

/-- Apply one public operation, discarding returned output. -/
def applyOp (m : MarkdownStreamer) : MDOp → MarkdownStreamer
  | .feedOp s => (MarkdownStreamer.feed m s).2
  | .resetOp => MarkdownStreamer.reset m
  | .flushOp => (MarkdownStreamer.flush m).2

/-- Apply a sequence of public operations to the sanitizer. -/
def applyOps (m : MarkdownStreamer) (ops : List MDOp) : MarkdownStreamer :=
  ops.foldl applyOp m

/-- A well-formed fenced code block as one text: an opening line of
three backticks plus a language tag, interior lines, and a closing
line, each line newline-terminated. -/
def mkFenceBlock (lang : String) (interior : List String) (closing : String) : String :=
  "```" ++ lang ++ "\n" ++ sjoin (interior.map (· ++ "\n")) ++ closing ++ "\n"

/-- The quoted rendering of a fenced block's interior lines. -/
def fenceRendered (interior : List String) : String :=
  sjoin (interior.map (fun l => "  │ " ++ l ++ "\n"))

/-- Display items that carry free-form text content (the places where a
text fragment can appear in rendered output). -/
def rendersText (sub : String) (d : Disp) : Bool :=
  match d with
  | .rawLine s => strIncludes s sub
  | .verboseLine s => strIncludes s sub
  | .textChunk s => strIncludes s sub
  | .thinkingChunk s => strIncludes s sub
  | .assistantTextLine s => strIncludes s sub
  | _ => false

/-- Number of display items whose text content contains `sub`. -/
def countTextItems (ds : List Disp) (sub : String) : Nat :=
  (ds.filter (rendersText sub)).length

/-- C1 scenario (from the spec): a turn whose block 0 is a streamed
`tool_use` and whose block 1 is a text block present only in the
consolidated assistant message. -/
def c1Events : List Event :=
  [ .contentBlockStart 0 (some { type := "tool_use", name := some "Bash" }),
    .contentBlockStop 0,
    .assistant (some { content :=
                         some [ .toolUseBlock "Bash" "\x7b\x7d",
                                .textBlock "Hello from block 1" ] }) ]

/-- C2 scenario: the turn's only text arrives via the consolidated
assistant message; no granular block events at all. -/
def c2Events : List Event :=
  [ .assistant (some { content := some [ .textBlock "Work complete: DONE" ] }) ]

/-- A configuration with a stop sentinel, for the C2 scenario. -/
def cfgStopDone : LoopConfig := { stopString := some "DONE" }

/-- The final JSON line of the C3 scenario: a `result` event that
arrives without a trailing newline. -/
def c3Line : String :=
  "\x7b\"type\":\"result\",\"usage\":\x7b\"input_tokens\":5,\"output_tokens\":7\x7d\x7d"

/-- A parse function behaving like `JSON.parse` on the C3 line. -/
def c3Parse (s : String) : Option Event :=
  if s = c3Line then
    some (.result (some { input_tokens := some 5, output_tokens := some 7 }) none)
  else
    none

/-- C4 scenario: an `input_json_delta` at index 2, which never received
a `content_block_start`. -/
def c4JsonDeltaEvent : Event :=
  .contentBlockDelta 2 (some (.input_json_delta "\"command\":\"ls\""))

/-- C4 scenario: a `text_delta` at index 2, which never received a
`content_block_start`. -/
def c4TextDeltaEvent : Event :=
  .contentBlockDelta 2 (some (.text_delta "partial text"))

/-- C5 scenario configuration: 5 iterations, no sentinels. -/
def cfgSig : LoopConfig := { iterations := 5 }

/-- A successful iteration result with exit code 0. -/
def okResult (j : Nat) : IterationResult :=
  { iteration := j, success := true, exitCode := 0, durationMs := 500 }

/-- An iteration result for a subprocess killed by SIGKILL (exit 137). -/
def sigKillResult : IterationResult :=
  { iteration := 2, success := false, exitCode := 137, durationMs := 800 }

/-- C5 scenario results: iteration 2 dies with exit code 137, every
other iteration succeeds. -/
def resultsSig (j : Nat) : IterationResult :=
  if j = 2 then sigKillResult else okResult j

/-- A C6 witness result carrying full token/cost data. -/
def c6r1 : IterationResult :=
  { iteration := 1, success := true, exitCode := 0, durationMs := 1200,
    tokenUsage := some ⟨100, 40, 3, 2⟩,
    costUsd := some (1 / 4) }

/-- A C6 witness result with missing cost/token data (a failed
iteration). -/
def c6r2 : IterationResult :=
  { iteration := 2, success := false, exitCode := 1, durationMs := 700 }

/-- A C10 witness state with a single tracked block at index 0. -/
def c10State : IterState :=
  { blocks := [(0, { type := .tool_use, name := "Bash" })] }

/-! ## Theorems -/

namespace MarkdownStreamer

theorem feedChars_append (m : MarkdownStreamer) (xs ys : List Char) :
    feedChars m (xs ++ ys) =
      ((feedChars m xs).1 ++ (feedChars (feedChars m xs).2 ys).1,
        (feedChars (feedChars m xs).2 ys).2) := by
  induction xs generalizing m with
  | nil => simp [feedChars]
  | cons c cs ih =>
    simp only [List.cons_append, feedChars]
    rw [show cs.append ys = cs ++ ys from rfl, ih]
    simp [String.append_assoc]

theorem feed_append (m : MarkdownStreamer) (x y : String) :
    feed m (x ++ y) =
      ((feed m x).1 ++ (feed (feed m x).2 y).1, (feed (feed m x).2 y).2) := by
  simp only [feed, String.data_append, feedChars_append]

theorem feedAll_eq_feed_sjoin (m : MarkdownStreamer) (chunks : List String) :
    feedAll m chunks = feed m (sjoin chunks) := by
  induction chunks generalizing m with
  | nil => rfl
  | cons s rest ih =>
    simp only [feedAll, sjoin, ih, feed_append]

theorem inv_mk0 : inv mk0 := by
  simp [inv, mk0]

theorem inv_step (m : MarkdownStreamer) (c : Char) (h : inv m) : inv (step m c).2 := by
  obtain ⟨st, ls, ic, bo, fe⟩ := m
  cases st <;>
    simp only [step, stepLineStart, stepNormal, stepCodeFenceOpening, stepCodeFence,
      stepInlineCode, stepStar1, stepBold, stepBoldStar1] <;>
    split_ifs <;>
    simp_all [inv]

theorem inv_feedChars (cs : List Char) (m : MarkdownStreamer) (h : inv m) :
    inv (feedChars m cs).2 := by
  induction cs generalizing m with
  | nil => exact h
  | cons c cs ih => exact ih _ (inv_step m c h)

theorem inv_flush_eq_mk0 (m : MarkdownStreamer) (h : inv m) : (flush m).2 = mk0 := by
  obtain ⟨st, ls, ic, bo, fe⟩ := m
  cases st <;> simp_all [inv, flush, mk0]

end MarkdownStreamer

/-- C7: feeding a text to the Markdown Sanitizer in any chunking (one
character at a time, or any other split) and concatenating the returned
outputs gives exactly the output of feeding the whole string in a single
`feed` call, from any starting state: `feed` distributes over
concatenation on the sequentially-evolving state, and a fragment list is
equivalent to its join. -/
theorem markdown_feed_chunk_independence :
    (∀ (m : MarkdownStreamer) (x y : String),
      MarkdownStreamer.feed m (x ++ y) =
        ((MarkdownStreamer.feed m x).1 ++
          (MarkdownStreamer.feed (MarkdownStreamer.feed m x).2 y).1,
          (MarkdownStreamer.feed (MarkdownStreamer.feed m x).2 y).2)) ∧
    (∀ (m : MarkdownStreamer) (chunks : List String),
      MarkdownStreamer.feedAll m chunks = MarkdownStreamer.feed m (sjoin chunks)) :=
  ⟨MarkdownStreamer.feed_append, MarkdownStreamer.feedAll_eq_feed_sjoin⟩

theorem inv_applyOp (m : MarkdownStreamer) (op : MDOp)
    (h : MarkdownStreamer.inv m) : MarkdownStreamer.inv (applyOp m op) := by
  cases op with
  | feedOp s => exact MarkdownStreamer.inv_feedChars _ _ h
  | resetOp => exact MarkdownStreamer.inv_mk0
  | flushOp =>
    rw [applyOp, MarkdownStreamer.inv_flush_eq_mk0 m h]
    exact MarkdownStreamer.inv_mk0

theorem inv_applyOps (m : MarkdownStreamer) (ops : List MDOp)
    (h : MarkdownStreamer.inv m) : MarkdownStreamer.inv (applyOps m ops) := by
  induction ops generalizing m with
  | nil => exact h
  | cons op ops ih => exact ih _ (inv_applyOp m op h)

/-- C9: after any reachable history of `feed`/`reset`/`flush` calls on a
freshly-constructed sanitizer, a `flush()` leaves the sanitizer in
exactly the freshly-constructed state (`LineStart`, all four buffers
empty); hence an immediately following second `flush()` returns `""`,
and feeding any input after a `flush()` behaves exactly like feeding it
to a brand-new sanitizer. -/
theorem markdown_flush_restores_initial_state (ops : List MDOp) :
    (MarkdownStreamer.flush (applyOps MarkdownStreamer.mk0 ops)).2 = MarkdownStreamer.mk0 ∧
    (MarkdownStreamer.flush
      (MarkdownStreamer.flush (applyOps MarkdownStreamer.mk0 ops)).2).1 = "" ∧
    ∀ (s : String),
      MarkdownStreamer.feed
        (MarkdownStreamer.flush (applyOps MarkdownStreamer.mk0 ops)).2 s =
        MarkdownStreamer.feed MarkdownStreamer.mk0 s := by
  have h := MarkdownStreamer.inv_flush_eq_mk0 _
    (inv_applyOps _ ops MarkdownStreamer.inv_mk0)
  refine ⟨h, ?_, ?_⟩
  · rw [h]
    rfl
  · intro s
    rw [h]

theorem string_push_append_mk (b : String) (c : Char) (cs : List Char) :
    b.push c ++ String.mk cs = b ++ String.mk (c :: cs) := by
  cases b with
  | mk d =>
    show String.mk ((d ++ [c]) ++ cs) = String.mk (d ++ (c :: cs))
    rw [List.append_assoc]
    rfl

theorem string_mk_data (l : String) : String.mk l.data = l := by
  cases l
  rfl

theorem string_append_mk_nil (s : String) : s ++ String.mk [] = s := by
  cases s with
  | mk d =>
    show String.mk (d ++ []) = String.mk d
    rw [List.append_nil]

namespace MarkdownStreamer

theorem feedChars_codeFence_chars (ls ic bo : String) (cs : List Char)
    (h : '\n' ∉ cs) (fe : String) :
    feedChars ⟨.codeFence, ls, ic, bo, fe⟩ cs =
      ("", ⟨.codeFence, ls, ic, bo, fe ++ String.mk cs⟩) := by
  induction cs generalizing fe with
  | nil => simp [feedChars, string_append_mk_nil]
  | cons c cs ih =>
    have hc : ¬ c = '\n' := fun e => h (e ▸ List.mem_cons_self c cs)
    simp only [feedChars, step, stepCodeFence, if_neg hc]
    rw [ih (fun hm => h (List.mem_cons_of_mem _ hm)) (fe.push c)]
    simp [string_push_append_mk]

theorem feed_codeFence_line (ls ic bo : String) (l : String)
    (hnl : '\n' ∉ l.data) (hcl : isClosingFence l = false) :
    feed ⟨.codeFence, ls, ic, bo, ""⟩ (l ++ "\n") =
      ("  │ " ++ l ++ "\n", ⟨.codeFence, ls, ic, bo, ""⟩) := by
  rw [feed, String.data_append, feedChars_append]
  rw [show feedChars ⟨.codeFence, ls, ic, bo, ""⟩ l.data =
        ("", ⟨.codeFence, ls, ic, bo, l⟩) by
      rw [feedChars_codeFence_chars ls ic bo l.data hnl ""]
      exact congrArg _ (congrArg _ (string_mk_data l))]
  rw [show ("\n" : String).data = ['\n'] from rfl]
  simp only [feedChars, step, stepCodeFence, if_pos rfl, hcl, Bool.false_eq_true,
    if_false]
  simp

theorem feed_codeFence_body (ls ic bo : String) (interior : List String)
    (h : ∀ l ∈ interior, '\n' ∉ l.data ∧ isClosingFence l = false) :
    feed ⟨.codeFence, ls, ic, bo, ""⟩ (sjoin (interior.map (· ++ "\n"))) =
      (fenceRendered interior, ⟨.codeFence, ls, ic, bo, ""⟩) := by
  induction interior with
  | nil => rfl
  | cons l rest ih =>
    have hl := h l (List.mem_cons_self l rest)
    simp only [List.map_cons, sjoin, fenceRendered]
    rw [feed_append, feed_codeFence_line ls ic bo l hl.1 hl.2,
      ih (fun x hx => h x (List.mem_cons_of_mem _ hx))]
    simp [fenceRendered, String.append_assoc]

theorem feedChars_codeFenceOpening_chars (ls ic bo fe : String) (cs : List Char)
    (h : '\n' ∉ cs) :
    feedChars ⟨.codeFenceOpening, ls, ic, bo, fe⟩ cs =
      ("", ⟨.codeFenceOpening, ls, ic, bo, fe⟩) := by
  induction cs with
  | nil => rfl
  | cons c cs ih =>
    have hc : ¬ c = '\n' := fun e => h (e ▸ List.mem_cons_self c cs)
    simp only [feedChars, step, stepCodeFenceOpening, if_neg hc]
    rw [ih (fun hm => h (List.mem_cons_of_mem _ hm))]
    rfl

theorem feed_codeFence_closing (ls ic bo : String) (closing : String)
    (hnl : '\n' ∉ closing.data) (hcl : isClosingFence closing = true) :
    feed ⟨.codeFence, ls, ic, bo, ""⟩ (closing ++ "\n") =
      ("", ⟨.lineStart, "", ic, bo, ""⟩) := by
  rw [feed, String.data_append, feedChars_append]
  rw [show feedChars ⟨.codeFence, ls, ic, bo, ""⟩ closing.data =
        ("", ⟨.codeFence, ls, ic, bo, closing⟩) by
      rw [feedChars_codeFence_chars ls ic bo closing.data hnl ""]
      exact congrArg _ (congrArg _ (string_mk_data closing))]
  rw [show ("\n" : String).data = ['\n'] from rfl]
  simp only [feedChars, step, stepCodeFence, if_pos rfl, hcl, if_true]
  simp

end MarkdownStreamer

/-- C8: a well-formed fenced code block (an opening line of three
backticks plus a language tag, interior lines, and a closing line of
three or more backticks with only trailing whitespace) fed to a fresh
Markdown Sanitizer emits exactly the interior lines, each prefixed with
the quoting marker "  │ " — the opening and closing fence lines produce
no output at all — and returns the sanitizer to its initial state. -/
theorem markdown_fence_block_stripped (lang : String) (interior : List String)
    (closing : String)
    (hlang : '\n' ∉ lang.data)
    (hint : ∀ l ∈ interior, '\n' ∉ l.data ∧ MarkdownStreamer.isClosingFence l = false)
    (hcl : MarkdownStreamer.isClosingFence closing = true)
    (hclnl : '\n' ∉ closing.data) :
    MarkdownStreamer.feed MarkdownStreamer.mk0 (mkFenceBlock lang interior closing) =
      (fenceRendered interior, MarkdownStreamer.mk0) := by
  have h0 : MarkdownStreamer.feed MarkdownStreamer.mk0 "```" =
      ("", (⟨.codeFenceOpening, "", "", "", ""⟩ : MarkdownStreamer)) := rfl
  have h2 : MarkdownStreamer.feed (⟨.codeFenceOpening, "", "", "", ""⟩ : MarkdownStreamer) lang =
      ("", (⟨.codeFenceOpening, "", "", "", ""⟩ : MarkdownStreamer)) :=
    MarkdownStreamer.feedChars_codeFenceOpening_chars "" "" "" "" lang.data hlang
  have h3 : MarkdownStreamer.feed (⟨.codeFenceOpening, "", "", "", ""⟩ : MarkdownStreamer) "\n" =
      ("", (⟨.codeFence, "", "", "", ""⟩ : MarkdownStreamer)) := rfl
  have h4 := MarkdownStreamer.feed_codeFence_body "" "" "" interior hint
  have h5a : MarkdownStreamer.feed (⟨.codeFence, "", "", "", ""⟩ : MarkdownStreamer) closing =
      ("", (⟨.codeFence, "", "", "", closing⟩ : MarkdownStreamer)) := by
    rw [MarkdownStreamer.feed,
      MarkdownStreamer.feedChars_codeFence_chars "" "" "" closing.data hclnl ""]
    exact congrArg _ (congrArg _ (string_mk_data closing))
  have h5b : MarkdownStreamer.feed (⟨.codeFence, "", "", "", closing⟩ : MarkdownStreamer) "\n" =
      ("", (⟨.lineStart, "", "", "", ""⟩ : MarkdownStreamer)) := by
    show MarkdownStreamer.feedChars _ ['\n'] = _
    simp [MarkdownStreamer.feedChars, MarkdownStreamer.step,
      MarkdownStreamer.stepCodeFence, hcl]
  simp only [mkFenceBlock, MarkdownStreamer.feed_append, h0, h2, h3, h4, h5a, h5b]
  simp [MarkdownStreamer.mk0]

/-- Witness for C8 at a concrete fenced block. -/
theorem markdown_fence_block_stripped_witness :
    MarkdownStreamer.feed MarkdownStreamer.mk0 (mkFenceBlock "py" ["x = 1", ""] "```") =
      (fenceRendered ["x = 1", ""], MarkdownStreamer.mk0) :=
  markdown_fence_block_stripped "py" ["x = 1", ""] "```"
    (by decide) (by decide) (by decide) (by decide)

theorem stopCheck_none_of_soft (cfg : LoopConfig) (i : Nat) (r : IterationResult)
    (hstop : cfg.stopString = none) (hcont : cfg.continueString = none)
    (_hs : r.success = decide (r.exitCode = 0)) (hlt : r.exitCode < 128) :
    stopCheck cfg i r = none := by
  simp only [stopCheck, hstop, hcont, stopCheck.stopCheckContinue, stopCheck.stopCheckExit]
  rw [if_neg]
  rintro ⟨-, h⟩
  omega

theorem stopCheck_signal_reason (cfg : LoopConfig) (i : Nat) (r : IterationResult)
    (hstop : cfg.stopString = none) (hcont : cfg.continueString = none)
    (hs : r.success = decide (r.exitCode = 0)) (h128 : 128 ≤ r.exitCode) :
    stopCheck cfg i r = some (killedReason i r.exitCode) := by
  have hns : ¬ r.success = true := by
    rw [hs]
    simp only [decide_eq_true_eq]
    omega
  simp only [stopCheck, hstop, hcont, stopCheck.stopCheckContinue, stopCheck.stopCheckExit]
  rw [if_pos ⟨hns, h128⟩]

theorem loopGo_soft_runs_out (cfg : LoopConfig) (results : Nat → IterationResult)
    (hstop : cfg.stopString = none) (hcont : cfg.continueString = none)
    (hsucc : ∀ j, (results j).success = decide ((results j).exitCode = 0)) :
    ∀ (fuel i : Nat) (cum : CumulativeStats),
      (∀ j, i ≤ j → j < i + fuel → (results j).exitCode < 128) →
      (loopGo cfg results fuel i cum).2 = none ∧
      (loopGo cfg results fuel i cum).1.completedIterations =
        (if fuel = 0 then cum.completedIterations else i + fuel - 1) := by
  intro fuel
  induction fuel with
  | zero =>
    intro i cum _
    exact ⟨rfl, by simp [loopGo]⟩
  | succ f ih =>
    intro i cum h
    have hstep := stopCheck_none_of_soft cfg i (results i) hstop hcont (hsucc i)
      (h i (Nat.le_refl i) (by omega))
    simp only [loopGo, hstep]
    have hrec := ih (i + 1) (updateCumulative cum i (results i))
      (fun j hj1 hj2 => h j (by omega) (by omega))
    refine ⟨hrec.1, ?_⟩
    rw [hrec.2, if_neg (Nat.succ_ne_zero f)]
    rcases Nat.eq_zero_or_pos f with hf | hf
    · subst hf
      rw [if_pos rfl]
      simp only [updateCumulative]
      omega
    · rw [if_neg (by omega)]
      omega

theorem loopGo_signal_stops (cfg : LoopConfig) (results : Nat → IterationResult)
    (hstop : cfg.stopString = none) (hcont : cfg.continueString = none)
    (hsucc : ∀ j, (results j).success = decide ((results j).exitCode = 0)) :
    ∀ (fuel i : Nat) (cum : CumulativeStats) (k : Nat),
      i ≤ k → k < i + fuel →
      (∀ j, i ≤ j → j < k → (results j).exitCode < 128) →
      128 ≤ (results k).exitCode →
      (loopGo cfg results fuel i cum).2 = some (killedReason k (results k).exitCode) ∧
      (loopGo cfg results fuel i cum).1.completedIterations = k := by
  intro fuel
  induction fuel with
  | zero =>
    intro i cum k h1 h2 _ _
    exact absurd h2 (by omega)
  | succ f ih =>
    intro i cum k h1 h2 h3 h4
    rcases Nat.eq_or_lt_of_le h1 with he | hlt
    · subst he
      have hsig := stopCheck_signal_reason cfg i (results i) hstop hcont (hsucc i) h4
      simp only [loopGo, hsig]
      exact ⟨by simp, by simp [updateCumulative]⟩
    · have hnone := stopCheck_none_of_soft cfg i (results i) hstop hcont (hsucc i)
        (h3 i (Nat.le_refl i) hlt)
      simp only [loopGo, hnone]
      exact ih (i + 1) _ k (by omega) (by omega)
        (fun j hj1 hj2 => h3 j (by omega) hj2) h4

/-- C5: with no sentinels configured, an iteration whose subprocess
exits with a code in 0–127 never stops the loop — only the configured
iteration budget ends the run ("all iterations completed", cumulative
count equal to the budget) — while the first iteration whose exit code
is ≥ 128 stops the loop immediately with a stop reason naming the
signal decoded as exit code minus 128, and the cumulative count equal
to that iteration's ordinal. -/
theorem runLoop_exit_code_policy (cfg : LoopConfig) (results : Nat → IterationResult)
    (hstop : cfg.stopString = none) (hcont : cfg.continueString = none)
    (hn : 1 ≤ cfg.iterations)
    (hsucc : ∀ j, (results j).success = decide ((results j).exitCode = 0)) :
    ((∀ j, 1 ≤ j → j ≤ cfg.iterations → (results j).exitCode < 128) →
      (runLoopModel cfg results).2 = "all iterations completed" ∧
      (runLoopModel cfg results).1.completedIterations = cfg.iterations) ∧
    (∀ k, 1 ≤ k → k ≤ cfg.iterations →
      (∀ j, 1 ≤ j → j < k → (results j).exitCode < 128) →
      128 ≤ (results k).exitCode →
      (runLoopModel cfg results).2 = killedReason k (results k).exitCode ∧
      (runLoopModel cfg results).1.completedIterations = k) := by
  constructor
  · intro hall
    have h := loopGo_soft_runs_out cfg results hstop hcont hsucc cfg.iterations 1
      initCumulative (fun j hj1 hj2 => hall j hj1 (by omega))
    simp only [runLoopModel]
    refine ⟨?_, ?_⟩
    · rw [h.1]
      rfl
    · rw [h.2, if_neg (by omega)]
      omega
  · intro k hk1 hk2 hpre h128
    have h := loopGo_signal_stops cfg results hstop hcont hsucc cfg.iterations 1
      initCumulative k hk1 (by omega) hpre h128
    simp only [runLoopModel]
    refine ⟨?_, h.2⟩
    rw [h.1]
    rfl

/-- Witness for C5 at the spec's example: exit 137 on iteration 2 of 5
stops the loop after iteration 2 with a SIGKILL stop reason. -/
theorem runLoop_exit_code_policy_witness :
    (runLoopModel cfgSig resultsSig).2 = killedReason 2 137 ∧
    (runLoopModel cfgSig resultsSig).1.completedIterations = 2 ∧
    killedReason 2 137 = "Claude killed by SIGKILL (exit code 137) on iteration 2" := by
  have h := (runLoop_exit_code_policy cfgSig resultsSig rfl rfl (by decide)
    (fun j => by
      by_cases hj : j = 2 <;>
        simp [resultsSig, hj, sigKillResult, okResult])).2
    2 (by decide) (by decide)
    (fun j h1 h2 => by
      have hj : j = 1 := by omega
      subst hj
      decide)
    (by decide)
  exact ⟨h.1, h.2, by decide⟩

theorem sum_map_take_mono {α : Type} {M : Type} [OrderedAddCommMonoid M]
    (l : List α) (f : α → M) (h : ∀ x ∈ l, 0 ≤ f x) {k k' : Nat} (hk : k ≤ k') :
    ((l.take k).map f).sum ≤ ((l.take k').map f).sum := by
  have hsplit : l.take k' = l.take k ++ (l.take k').drop k := by
    conv_lhs => rw [← List.take_append_drop k (l.take k')]
    rw [List.take_take, Nat.min_eq_left hk]
  rw [hsplit, List.map_append, List.sum_append]
  apply le_add_of_nonneg_right
  apply List.sum_nonneg
  intro x hx
  obtain ⟨y, hy, rfl⟩ := List.mem_map.mp hx
  exact h y (List.take_subset _ _ (List.drop_subset _ _ hy))

theorem applyResults_fields (rs : List IterationResult) :
    ∀ (cum : CumulativeStats) (i : Nat),
      (applyResults cum i rs).completedIterations =
        (if rs.length = 0 then cum.completedIterations else i + rs.length - 1) ∧
      (applyResults cum i rs).totalDurationMs =
        cum.totalDurationMs + (rs.map (·.durationMs)).sum ∧
      (applyResults cum i rs).totalCostUsd =
        cum.totalCostUsd + (rs.map (fun r => jsOrQ r.costUsd)).sum ∧
      (applyResults cum i rs).totalInputTokens =
        cum.totalInputTokens + (rs.map (fun r => (r.tokenUsage.map (·.inputTokens)).getD 0)).sum ∧
      (applyResults cum i rs).totalOutputTokens =
        cum.totalOutputTokens + (rs.map (fun r => (r.tokenUsage.map (·.outputTokens)).getD 0)).sum := by
  induction rs with
  | nil =>
    intro cum i
    simp [applyResults]
  | cons r rest ih =>
    intro cum i
    have h := ih (updateCumulative cum i r) (i + 1)
    simp only [applyResults, List.map_cons, List.sum_cons, List.length_cons]
    refine ⟨?_, ?_, ?_, ?_, ?_⟩
    · rw [h.1]
      rcases rest with _ | ⟨r2, rest2⟩
      · simp [updateCumulative]
      · simp only [List.length_cons]
        rw [if_neg (by omega), if_neg (by omega)]
        omega
    · rw [h.2.1]
      simp [updateCumulative, Nat.add_assoc]
    · rw [h.2.2.1]
      simp [updateCumulative, add_assoc]
    · rw [h.2.2.2.1]
      simp [updateCumulative, Nat.add_assoc]
    · rw [h.2.2.2.2]
      simp [updateCumulative, Nat.add_assoc]

theorem applyResults_init_fields (rs : List IterationResult) :
    (applyResults initCumulative 1 rs).completedIterations = rs.length ∧
    (applyResults initCumulative 1 rs).totalDurationMs = (rs.map (·.durationMs)).sum ∧
    (applyResults initCumulative 1 rs).totalCostUsd =
      (rs.map (fun r => jsOrQ r.costUsd)).sum ∧
    (applyResults initCumulative 1 rs).totalInputTokens =
      (rs.map (fun r => (r.tokenUsage.map (·.inputTokens)).getD 0)).sum ∧
    (applyResults initCumulative 1 rs).totalOutputTokens =
      (rs.map (fun r => (r.tokenUsage.map (·.outputTokens)).getD 0)).sum := by
  have h := applyResults_fields rs initCumulative 1
  refine ⟨?_, ?_, ?_, ?_, ?_⟩
  · rw [h.1]
    split_ifs with h0
    · simp [initCumulative, h0]
    · omega
  · rw [h.2.1]; simp [initCumulative]
  · rw [h.2.2.1]; simp [initCumulative]
  · rw [h.2.2.2.1]; simp [initCumulative]
  · rw [h.2.2.2.2]; simp [initCumulative]

/-- C6: after processing N iteration results through the `runLoop`
cumulative update, every field of the Cumulative Stats equals the exact
sum of the corresponding fields of those N results (completed count is
N; missing cost/token data counts as zero), for any mix of successful
and failed iterations.  Moreover, provided each iteration's recorded
cost is non-negative, the cumulative values along the run are
non-negative and non-decreasing (stats after k iterations are
dominated fieldwise by stats after k' ≥ k iterations). -/
theorem cumulative_stats_exact_sums (rs : List IterationResult) :
    ((applyResults initCumulative 1 rs).completedIterations = rs.length ∧
     (applyResults initCumulative 1 rs).totalDurationMs = (rs.map (·.durationMs)).sum ∧
     (applyResults initCumulative 1 rs).totalCostUsd =
       (rs.map (fun r => jsOrQ r.costUsd)).sum ∧
     (applyResults initCumulative 1 rs).totalInputTokens =
       (rs.map (fun r => (r.tokenUsage.map (·.inputTokens)).getD 0)).sum ∧
     (applyResults initCumulative 1 rs).totalOutputTokens =
       (rs.map (fun r => (r.tokenUsage.map (·.outputTokens)).getD 0)).sum) ∧
    ((∀ r ∈ rs, 0 ≤ jsOrQ r.costUsd) →
      ∀ k k' : Nat, k ≤ k' →
        0 ≤ (applyResults initCumulative 1 (rs.take k)).totalCostUsd ∧
        (applyResults initCumulative 1 (rs.take k)).completedIterations ≤
          (applyResults initCumulative 1 (rs.take k')).completedIterations ∧
        (applyResults initCumulative 1 (rs.take k)).totalDurationMs ≤
          (applyResults initCumulative 1 (rs.take k')).totalDurationMs ∧
        (applyResults initCumulative 1 (rs.take k)).totalCostUsd ≤
          (applyResults initCumulative 1 (rs.take k')).totalCostUsd ∧
        (applyResults initCumulative 1 (rs.take k)).totalInputTokens ≤
          (applyResults initCumulative 1 (rs.take k')).totalInputTokens ∧
        (applyResults initCumulative 1 (rs.take k)).totalOutputTokens ≤
          (applyResults initCumulative 1 (rs.take k')).totalOutputTokens) := by
  refine ⟨applyResults_init_fields rs, ?_⟩
  intro hcost k k' hk
  have ha := applyResults_init_fields (rs.take k)
  have hb := applyResults_init_fields (rs.take k')
  have hsub : ∀ r ∈ rs.take k', 0 ≤ jsOrQ r.costUsd :=
    fun r hr => hcost r (List.take_subset _ _ hr)
  refine ⟨?_, ?_, ?_, ?_, ?_, ?_⟩
  · rw [ha.2.2.1]
    apply List.sum_nonneg
    intro x hx
    obtain ⟨y, hy, rfl⟩ := List.mem_map.mp hx
    exact hcost y (List.take_subset _ _ hy)
  · rw [ha.1, hb.1, List.length_take, List.length_take]
    exact min_le_min hk (le_refl _)
  · rw [ha.2.1, hb.2.1]
    exact sum_map_take_mono rs _ (fun x _ => Nat.zero_le _) hk
  · rw [ha.2.2.1, hb.2.2.1]
    exact sum_map_take_mono rs _ (fun x hx => hcost x hx) hk
  · rw [ha.2.2.2.1, hb.2.2.2.1]
    exact sum_map_take_mono rs _ (fun x _ => Nat.zero_le _) hk
  · rw [ha.2.2.2.2, hb.2.2.2.2]
    exact sum_map_take_mono rs _ (fun x _ => Nat.zero_le _) hk

/-- Witness for C6 at two concrete results (one successful with full
data, one failed with missing cost/token data). -/
theorem cumulative_stats_exact_sums_witness :
    ((applyResults initCumulative 1 [c6r1, c6r2]).completedIterations = 2 ∧
     (applyResults initCumulative 1 [c6r1, c6r2]).totalDurationMs = 1900 ∧
     (applyResults initCumulative 1 [c6r1, c6r2]).totalCostUsd = 1 / 4 ∧
     (applyResults initCumulative 1 [c6r1, c6r2]).totalInputTokens = 100 ∧
     (applyResults initCumulative 1 [c6r1, c6r2]).totalOutputTokens = 40) ∧
    0 ≤ (applyResults initCumulative 1 ([c6r1, c6r2].take 1)).totalCostUsd ∧
    (applyResults initCumulative 1 ([c6r1, c6r2].take 1)).totalCostUsd ≤
      (applyResults initCumulative 1 ([c6r1, c6r2].take 2)).totalCostUsd := by
  have h := cumulative_stats_exact_sums [c6r1, c6r2]
  have h2 := h.2 (by norm_num [c6r1, c6r2, jsOrQ]) 1 2 (by norm_num)
  refine ⟨⟨h.1.1.trans (by decide), h.1.2.1.trans (by decide),
    h.1.2.2.1.trans (by norm_num [c6r1, c6r2, jsOrQ]),
    h.1.2.2.2.1.trans (by decide), h.1.2.2.2.2.trans (by decide)⟩, h2.1, h2.2.2.2.1⟩

theorem lookupB_eraseB_self (bs : List (Nat × StreamingBlock)) (idx : Nat) :
    lookupB (eraseB bs idx) idx = none := by
  induction bs with
  | nil => rfl
  | cons p bs ih =>
    by_cases hp : p.1 = idx
    · simpa [eraseB, hp] using ih
    · simpa [eraseB, lookupB, hp] using ih

theorem lookupB_eraseB_ne (bs : List (Nat × StreamingBlock)) (idx j : Nat)
    (h : j ≠ idx) : lookupB (eraseB bs idx) j = lookupB bs j := by
  induction bs with
  | nil => rfl
  | cons p bs ih =>
    have hij : idx ≠ j := fun e => h e.symm
    by_cases hp : p.1 = idx
    · simpa [eraseB, lookupB, hp, hij] using ih
    · by_cases hpj : p.1 = j
      · simp [eraseB, lookupB, hp, hpj, h]
      · simpa [eraseB, lookupB, hp, hpj] using ih

/-- C10: processing a `content_block_stop` event whose index has no
entry in the block table is a complete no-op — no display output, no
state change of any kind — and for a tracked index, processing the stop
event removes exactly that entry from the table, leaving every other
index's entry untouched. -/
theorem block_stop_untracked_noop (st : IterState) (idx : Nat) :
    (lookupB st.blocks idx = none →
      processParsedEvent (.contentBlockStop idx) st = st) ∧
    (∀ b, lookupB st.blocks idx = some b →
      lookupB (processParsedEvent (.contentBlockStop idx) st).blocks idx = none ∧
      ∀ j, j ≠ idx →
        lookupB (processParsedEvent (.contentBlockStop idx) st).blocks j =
          lookupB st.blocks j) := by
  have heq : processParsedEvent (.contentBlockStop idx) st = handleBlockStop idx st := rfl
  constructor
  · intro h
    rw [heq]
    simp only [handleBlockStop, h]
  · intro b hb
    rw [heq]
    obtain ⟨ty, nm, inp, cont⟩ := b
    cases ty <;>
      simp only [handleBlockStop, hb] <;>
      exact ⟨lookupB_eraseB_self _ _, fun j hj => lookupB_eraseB_ne _ _ _ hj⟩

/-- Witness for C10: a stop for untracked index 3 leaves the state
untouched; a stop for tracked index 0 removes that entry. -/
theorem block_stop_untracked_noop_witness :
    processParsedEvent (.contentBlockStop 3) c10State = c10State ∧
    lookupB (processParsedEvent (.contentBlockStop 0) c10State).blocks 0 = none := by
  refine ⟨(block_stop_untracked_noop c10State 3).1 (by decide), ?_⟩
  exact ((block_stop_untracked_noop c10State 0).2
    { type := .tool_use, name := "Bash" } (by decide)).1

/-- C1 (evaluation at the spec's failing input): in a turn where block 0
is a streamed `tool_use` and block 1 is a text block present only in
the consolidated assistant message, the `hasStreamedContent` boolean
makes `handleAssistantMessage` skip the whole consolidated message, so
block 1's text is rendered zero times, not once: the display trace
contains only the tool-use line. -/
theorem assistant_fallback_drops_unstreamed_text :
    countTextItems (processEvents c1Events {}).display "Hello from block 1" = 0 ∧
    (processEvents c1Events {}).display = [.toolUseLine "Bash" "\x7b\x7d"] := by
  decide

/-- C2 (evaluation at the failing input): when a turn's only text
arrives via the consolidated assistant-message fallback, the fallback
renders the text but never updates `lastTextBlock`, so the sentinel
check sees `""` and misses a stop string that the rendered text
contains. -/
theorem assistant_fallback_misses_sentinel :
    (processEvents c2Events {}).display = [.assistantTextLine "Work complete: DONE"] ∧
    (processEvents c2Events {}).ps.lastTextBlock = "" ∧
    (sentinelCheck cfgStopDone (processEvents c2Events {})).1 = false ∧
    strIncludes "Work complete: DONE" "DONE" = true := by
  decide

/-- C3 (evaluation at the failing input): a final `result` event line
with no trailing newline is forwarded verbatim as opaque text by the
end-of-stream remainder handling and is never offered to the JSON
parser — its token usage is lost — whereas the same line with a
trailing newline is parsed and dispatched. -/
theorem final_buffer_never_parsed :
    (runStream {} c3Parse [c3Line]).tokenUsage = none ∧
    (runStream {} c3Parse [c3Line]).display = [.rawLine c3Line] ∧
    (runStream {} c3Parse [c3Line ++ "\n"]).tokenUsage = some ⟨5, 7, 0, 0⟩ := by
  decide

/-- C4 (evaluation at the failing input): a `content_block_delta` at an
index with no block-table entry synthesizes nothing: an
`input_json_delta` at untracked index 2 is a complete no-op (the
fragment is silently discarded), and a `text_delta` at untracked
index 2 is displayed and appended to the transcript but no table entry
is created. -/
theorem orphan_delta_no_synthesis :
    processParsedEvent c4JsonDeltaEvent {} = {} ∧
    (processParsedEvent c4TextDeltaEvent {}).blocks = [] ∧
    (processParsedEvent c4TextDeltaEvent {}).display = [.textChunk "partial text"] ∧
    (processParsedEvent c4TextDeltaEvent {}).ps.lastTextBlock = "partial text" := by
  decide
